import Mathlib

/-!
Verification of the QuickSearch service (`src/main.py`).

The file embeds the two request pipelines of the service:

* `/search`: fetch a DuckDuckGo results page, walk the `.result` elements,
  extract title / url / snippet per element, truncate to `max_results`
  (`search_duckduckgo`), and wrap the outcome in the handler's JSON shape
  (`searchEndpoint`).
* `/read`: fetch a page, extract its `<title>` text, strip
  script/style/nav/header/footer/aside subtrees, select a main-content
  container by a fixed priority, serialize it to newline-separated text and
  collapse newline runs (`read_url`).

HTML documents are embedded as rose trees (`Node`, with child forests as
the mutual type `Forest`).  The HTML parsing library is an external
collaborator; its tree/selector API is modelled by its documented
behaviour: `find` returns the first matching element in document
(pre-order) order, `select` returns all matches in document order,
`select_one` on an element searches its descendants, `get_text(separator,
strip=True)` joins the stripped non-empty text pieces of the subtree, and
`decompose` removes an element together with its subtree.  Network calls
and parser-internal exceptions cannot be embedded; they enter the handler
models as explicit outcome parameters (`Except` / `Option`), which is all
the error-routing claims need.
-/

namespace QuickSearch

/-- One extracted search result; `url` is `none` when the link anchor has no
`href` attribute (serialized as JSON `null`). -/
structure SearchResult where
  title : String
  url : Option String
  description : String
deriving Repr, DecidableEq

mutual

/-- An HTML node: either a text node or an element with a tag name, an
attribute list and a forest of children. -/
inductive Node where
  | text (s : String) : Node
  | elem (tag : String) (attrs : List (String × String)) (children : Forest) : Node

/-- A forest of sibling HTML nodes, in document order. -/
inductive Forest where
  | nil : Forest
  | cons (n : Node) (f : Forest) : Forest

end

/-- Conversion from a list of nodes to a forest. -/
def Forest.ofList : List Node → Forest
  | [] => .nil
  | n :: ns => .cons n (Forest.ofList ns)

/-- Concatenation of forests. -/
def Forest.append : Forest → Forest → Forest
  | .nil, g => g
  | .cons n f, g => .cons n (Forest.append f g)

/-- Attribute lookup on an attribute list (first binding wins). -/
def getAttrList (attrs : List (String × String)) (key : String) : Option String :=
  (attrs.find? (fun kv => kv.1 == key)).map (fun kv => kv.2)

/-- Attribute lookup on a node, as `tag.get(key)`: `none` on text nodes and
missing attributes. -/
def Node.attr : Node → String → Option String
  | .text _, _ => none
  | .elem _ attrs _, key => getAttrList attrs key

/-- Tag-name test, as matching by name in `soup.find("tag")`. -/
def Node.tagIs : Node → String → Bool
  | .text _, _ => false
  | .elem t _ _, tg => t == tg

/-- Drop leading whitespace characters. -/
def dropWs : List Char → List Char
  | [] => []
  | c :: cs => if c.isWhitespace then dropWs cs else c :: cs

/-- Python `str.strip`: remove leading and trailing whitespace. -/
def pyStrip (s : String) : String :=
  String.mk ((dropWs ((dropWs s.data).reverse)).reverse)

/-- Split a character list on whitespace; `acc` holds the (reversed)
characters of the token currently being read. -/
def splitWsAux : List Char → List Char → List String
  | [], acc => if acc.isEmpty then [] else [String.mk acc.reverse]
  | c :: cs, acc =>
      if c.isWhitespace then
        if acc.isEmpty then splitWsAux cs []
        else String.mk acc.reverse :: splitWsAux cs []
      else splitWsAux cs (c :: acc)

/-- Whitespace-separated class tokens of a `class` attribute value. -/
def classTokens (c : String) : List String :=
  splitWsAux c.data []

/-- CSS class-selector test (`.tok`): the node's `class` attribute contains
the exact token `tok`. -/
def hasClassToken (n : Node) (tok : String) : Bool :=
  match n.attr "class" with
  | none => false
  | some c => (classTokens c).contains tok

/-- Prefix test on character lists. -/
def charsPrefix : List Char → List Char → Bool
  | [], _ => true
  | _ :: _, [] => false
  | a :: ps, b :: ss => a == b && charsPrefix ps ss

/-- Substring (contiguous) test on character lists. -/
def charsInfix (p : List Char) : List Char → Bool
  | [] => charsPrefix p []
  | c :: ss => charsPrefix p (c :: ss) || charsInfix p ss

/-- Case-sensitive substring test on strings, as `re.search` with a literal
pattern. -/
def containsSub (s pat : String) : Bool :=
  charsInfix pat.data s.data

/-- Alternatives of the literal regex `content|article|post|main` from
`read_url`. -/
def classPatterns : List String := ["content", "article", "post", "main"]

/-- Test for `class_=re.compile(r"content|article|post|main")`: the node has
a `class` attribute and the regex search succeeds on it.  (The alternatives
contain no whitespace, so searching the raw attribute value coincides with
searching each whitespace-separated class token.) -/
def classRegexMatches (n : Node) : Bool :=
  match n.attr "class" with
  | none => false
  | some c => classPatterns.any (fun p => containsSub c p)

mutual

/-- All text-node strings of a subtree, in document order. -/
def texts : Node → List String
  | .text s => [s]
  | .elem _ _ c => textsF c

/-- Text-node strings of a forest, in document order. -/
def textsF : Forest → List String
  | .nil => []
  | .cons n ns => texts n ++ textsF ns

end

mutual

/-- Pre-order (document-order) listing of all nodes of a subtree. -/
def preorder : Node → List Node
  | .text s => [.text s]
  | .elem t a c => .elem t a c :: preorderF c

/-- Pre-order listing of a forest. -/
def preorderF : Forest → List Node
  | .nil => []
  | .cons n ns => preorder n ++ preorderF ns

end

mutual

/-- First node satisfying `p`, in document order, as `soup.find(...)`. -/
def findFirst (p : Node → Bool) : Node → Option Node
  | .text s => if p (.text s) then some (.text s) else none
  | .elem t a c =>
      if p (.elem t a c) then some (.elem t a c) else findFirstF p c

/-- First node of a forest satisfying `p`, in document order. -/
def findFirstF (p : Node → Bool) : Forest → Option Node
  | .nil => none
  | .cons n ns => (findFirst p n).orElse (fun _ => findFirstF p ns)

end

/-- Strict descendants of a node, in document order. -/
def descendants : Node → List Node
  | .text _ => []
  | .elem _ _ c => preorderF c

/-- CSS `element.select(selector)` restricted to class selectors: all
matching nodes in document order. -/
def selectAll (p : Node → Bool) (n : Node) : List Node :=
  (preorder n).filter p

/-- CSS `element.select_one(selector)`: first descendant matching `p`. -/
def selectOne (p : Node → Bool) (n : Node) : Option Node :=
  (descendants n).find? p

/-- Tags removed by the `script.decompose()` loop in `read_url`. -/
def bannedTags : List String := ["script", "style", "nav", "header", "footer", "aside"]

/-- Whether a node is an element with one of the removed tag names. -/
def isBannedElem : Node → Bool
  | .text _ => false
  | .elem t _ _ => bannedTags.contains t

mutual

/-- Result of the decompose loop on a subtree rooted at a non-removed node:
every descendant element whose tag is in `bannedTags` is dropped together
with its subtree. -/
def clean : Node → Node
  | .text s => .text s
  | .elem t a c => .elem t a (cleanF c)

/-- Decompose loop on a forest. -/
def cleanF : Forest → Forest
  | .nil => .nil
  | .cons n ns => if isBannedElem n then cleanF ns else .cons (clean n) (cleanF ns)

end

/-- Python `str.strip` of each text piece, dropping pieces that become
empty, as `get_text(strip=True)` does before joining. -/
def stripPieces (l : List String) : List String :=
  (l.map pyStrip).filter (fun s => s ≠ "")

/-- Join a list of strings with a separator. -/
def joinSep (sep : String) : List String → String
  | [] => ""
  | [s] => s
  | s :: rest => s ++ (sep ++ joinSep sep rest)

/-- Model of `tag.get_text(separator=sep, strip=True)`: join the stripped
non-empty text pieces of the subtree with `sep`. -/
def getText (sep : String) (n : Node) : String :=
  joinSep sep (stripPieces (texts n))

/-- Model of `re.sub(r"\n+", "\n", ·)` on a character list: `prev` records
whether the previous emitted character is a newline. -/
def collapseAux : List Char → Bool → List Char
  | [], _ => []
  | c :: cs, prev =>
      if c = '\n' then
        if prev then collapseAux cs true else '\n' :: collapseAux cs true
      else c :: collapseAux cs false

/-- Model of `re.sub(r"\n+", "\n", text)`: every run of consecutive
newlines becomes a single newline. -/
def collapseNewlines (s : String) : String :=
  String.mk (collapseAux s.data false)

/-- The parsed document: BeautifulSoup wraps the top-level nodes in a
synthetic `[document]` root. -/
def mkDoc (kids : Forest) : Node :=
  .elem "[document]" [] kids

/-- Title extraction of `read_url`: text of the first `<title>` element
(with `strip=True`, empty separator), else the empty string.  This runs
before the decompose loop. -/
def extractTitle (soup : Node) : String :=
  match findFirst (fun n => n.tagIs "title") soup with
  | some t => getText "" t
  | none => ""

/-- Predicate of `soup.find("div", class_=re.compile(r"content|article|post|main"))`. -/
def divClassMatch (n : Node) : Bool :=
  n.tagIs "div" && classRegexMatches n

/-- Main-content selection of `read_url`, applied to the already cleaned
soup: `soup.find("main") or soup.find("article") or soup.find("div",
class_=...) or soup.body`. -/
def selectMainContent (soup : Node) : Option Node :=
  (findFirst (fun n => n.tagIs "main") soup).orElse fun _ =>
    (findFirst (fun n => n.tagIs "article") soup).orElse fun _ =>
      (findFirst divClassMatch soup).orElse fun _ =>
        findFirst (fun n => n.tagIs "body") soup

/-- The node whose text `read_url` serializes: the selected main-content
container of the cleaned soup, else the whole cleaned soup. -/
def mainContainer (soup : Node) : Node :=
  match selectMainContent (clean soup) with
  | some m => m
  | none => clean soup

/-- Content extraction of `read_url`: decompose the banned tags, select the
main-content container, serialize with `get_text(separator="\n",
strip=True)`, then collapse newline runs. -/
def extractContent (soup : Node) : String :=
  collapseNewlines (getText "\n" (mainContainer soup))

/-- CSS selector `.result` of `search_duckduckgo`. -/
def resultSel (n : Node) : Bool := hasClassToken n "result"

/-- CSS selector `.result__a` of `search_duckduckgo`. -/
def resultLinkSel (n : Node) : Bool := hasClassToken n "result__a"

/-- CSS selector `.result__snippet` of `search_duckduckgo`. -/
def resultSnippetSel (n : Node) : Bool := hasClassToken n "result__snippet"

/-- The `title_elem = result.select_one(".result__a")` line. -/
def titleElem (r : Node) : Option Node := selectOne resultLinkSel r

/-- The `url_elem = result.select_one(".result__a")` line (same selector as
`titleElem`). -/
def urlElem (r : Node) : Option Node := selectOne resultLinkSel r

/-- The `snippet_elem = result.select_one(".result__snippet")` line. -/
def snippetElem (r : Node) : Option Node := selectOne resultSnippetSel r

/-- Whether the loop body appends a record for this result element
(`if title_elem and url_elem`). -/
def validResult (r : Node) : Bool :=
  (titleElem r).isSome && (urlElem r).isSome

/-- The record appended for a result element: title text, `href` attribute
of the link (possibly absent), snippet text or empty string. -/
def resultRecord (r : Node) : SearchResult :=
  { title := match titleElem r with
             | some t => getText "" t
             | none => ""
    url := match urlElem r with
           | some u => u.attr "href"
           | none => none
    description := match snippetElem r with
                   | some s => getText "" s
                   | none => "" }

/-- The `for result in soup.select(".result")` loop: append a record when
title and url elements are found, and break as soon as `len(results) >=
max_results`. -/
def searchLoop (max_results : Nat) : List Node → List SearchResult → List SearchResult
  | [], acc => acc
  | r :: rest, acc =>
      let acc' :=
        match titleElem r, urlElem r with
        | some t, some u =>
            acc ++ [{ title := getText "" t
                      url := u.attr "href"
                      description := match snippetElem r with
                                     | some s => getText "" s
                                     | none => "" }]
        | _, _ => acc
      if max_results ≤ acc'.length then acc' else searchLoop max_results rest acc'

/-- Parsing phase of `search_duckduckgo` on the fetched results page. -/
def search_duckduckgo (soup : Node) (max_results : Nat) : List SearchResult :=
  searchLoop max_results (selectAll resultSel soup) []

/-- JSON body returned by the `/search` handler; exactly one of
`results_count` (success shape) and `error` (failure shape) is present. -/
structure SearchResponseBody where
  query : String
  results_count : Option Nat
  error : Option String
  results : List SearchResult
deriving Repr, DecidableEq

/-- The `/search` handler: `outcome` is the result of awaiting
`search_duckduckgo` (an `Except` whose error is the message of any raised
exception).  Returns HTTP status and body. -/
def searchEndpoint (q : String) (outcome : Except String (List SearchResult)) :
    Nat × SearchResponseBody :=
  match outcome with
  | .ok rs => (200, { query := q, results_count := some rs.length, error := none, results := rs })
  | .error e => (200, { query := q, results_count := none, error := some e, results := [] })

/-- A transport-successful response: final URL after redirects
(`str(response.url)`), HTTP status code, and parsed body. -/
structure FetchedPage where
  url : String
  status_code : Nat
  body : Node

/-- Result of the `/read` handler: a success body or an `HTTPException`
with status and detail. -/
inductive ReadResult where
  | success (url title content : String) (status_code : Nat) : ReadResult
  | httpError (status : Nat) (detail : String) : ReadResult

/-- The `read_url` handler.  `fetch` is the outcome of `client.get` (error
carries the `httpx.RequestError` message); `parseFailure` is the message of
an exception raised by the parsing library after a successful fetch, `none`
when parsing completes. -/
def read_url (fetch : Except String FetchedPage) (parseFailure : Option String) : ReadResult :=
  match fetch with
  | .error msg => .httpError 400 ("Error fetching URL: " ++ msg)
  | .ok page =>
      match parseFailure with
      | some msg => .httpError 500 ("Error parsing content: " ++ msg)
      | none =>
          .success page.url (extractTitle page.body) (extractContent page.body) page.status_code

mutual

/-- Text-node strings of a subtree that do not originate inside a
script/style/nav/header/footer/aside element: a text node contributes
exactly when no ancestor (within the subtree) is such an element.  This
follows the wording of the specification and is compared with the
composition of the decompose loop and text collection. -/
def textsOutsideBanned : Node → List String
  | .text s => [s]
  | .elem t _ c => if bannedTags.contains t then [] else textsOutsideBannedF c

/-- Forest version of `textsOutsideBanned`. -/
def textsOutsideBannedF : Forest → List String
  | .nil => []
  | .cons n ns => textsOutsideBanned n ++ textsOutsideBannedF ns

end

/-- Main-content selection as worded in the specification: identical to
`selectMainContent` except that step (c) accepts the first element of any
tag whose class attribute matches, not only a `<div>`.  Used to compare the
specified selection with the implemented one. -/
def specSelectMainContent (soup : Node) : Option Node :=
  (findFirst (fun n => n.tagIs "main") soup).orElse fun _ =>
    (findFirst (fun n => n.tagIs "article") soup).orElse fun _ =>
      (findFirst classRegexMatches soup).orElse fun _ =>
        findFirst (fun n => n.tagIs "body") soup

/-- Serialized container under the specification's selection rule. -/
def specMainContainer (soup : Node) : Node :=
  match specSelectMainContent (clean soup) with
  | some m => m
  | none => clean soup

/-- Content extraction under the specification's selection rule. -/
def specExtractContent (soup : Node) : String :=
  collapseNewlines (getText "\n" (specMainContainer soup))

/-- Document with no `<main>`, no `<article>`, no matching `<div>`, but a
`<span>` whose class contains `content`. -/
def cexDoc : Node :=
  mkDoc (.ofList [.elem "body" []
    (.ofList [.text "OUT", .elem "span" [("class", "content")] (.ofList [.text "SPAN"])])])

/-- Top-level nodes of a document containing both `<article>` and `<main>`
(article first in document order). -/
def prioKids : Forest :=
  .ofList [.elem "body" [] (.ofList
    [.elem "article" [] (.ofList [.text "ART"]),
     .elem "main" [] (.ofList [.text "MAIN"])])]

/-- A result link anchor with an `href` attribute. -/
def sampleLink (href t : String) : Node :=
  .elem "a" [("class", "result__a"), ("href", href)] (.ofList [.text t])

/-- A result link anchor carrying no `href` attribute. -/
def sampleLinkNoHref (t : String) : Node :=
  .elem "a" [("class", "result__a")] (.ofList [.text t])

/-- A result snippet element. -/
def sampleSnippet (t : String) : Node :=
  .elem "a" [("class", "result__snippet")] (.ofList [.text t])

/-- A complete result element: link with `href` plus snippet. -/
def sampleResult1 : Node :=
  .elem "div" [("class", "result")] (.ofList [sampleLink "http://one" "T1", sampleSnippet "D1"])

/-- A result element with a link but no snippet. -/
def sampleResult2 : Node :=
  .elem "div" [("class", "result")] (.ofList [sampleLink "http://two" "T2"])

/-- Another complete result element. -/
def sampleResult3 : Node :=
  .elem "div" [("class", "result")] (.ofList [sampleLink "http://three" "T3", sampleSnippet "D3"])

/-- A result container with neither title nor link element. -/
def sampleNoLink : Node :=
  .elem "div" [("class", "result")] (.ofList [.text "advertisement"])

/-- A result container whose link anchor has no `href` attribute. -/
def sampleNoHref : Node :=
  .elem "div" [("class", "result")] (.ofList [sampleLinkNoHref "T4"])

/-- Top-level nodes of a results page with three valid result elements. -/
def pageKids3 : Forest :=
  .ofList [.elem "body" [] (.ofList [sampleResult1, sampleResult2, sampleResult3])]

/-- Further document content appended after a results page. -/
def extraKids : Forest :=
  .ofList [.elem "div" [("class", "result")] (.ofList [sampleLink "http://x" "TX"])]

/-- Top-level nodes of a results page with two valid result elements and
one invalid one. -/
def pageKids2 : Forest :=
  .ofList [.elem "body" [] (.ofList [sampleResult1, sampleNoLink, sampleResult2])]

/-! ## Structural lemmas about the tree model -/

mutual

/-- The recursive first-match search agrees with first-match over the
pre-order (document-order) node listing. -/
theorem findFirst_eq_find? (p : Node → Bool) (n : Node) :
    findFirst p n = (preorder n).find? p := by
  cases n with
  | text s =>
      cases hp : p (.text s) <;>
        simp [findFirst, preorder, hp, List.find?_cons_of_pos, List.find?_cons_of_neg]
  | elem t a c =>
      cases hp : p (.elem t a c) with
      | true => simp [findFirst, preorder, hp, List.find?_cons_of_pos]
      | false =>
          rw [preorder, List.find?_cons_of_neg _ (by simp [hp])]
          simpa [findFirst, hp] using findFirstF_eq_find? p c

/-- Forest version of `findFirst_eq_find?`. -/
theorem findFirstF_eq_find? (p : Node → Bool) (f : Forest) :
    findFirstF p f = (preorderF f).find? p := by
  cases f with
  | nil => simp [findFirstF, preorderF]
  | cons n ns =>
      rw [findFirstF, preorderF, List.find?_append, ← findFirst_eq_find? p n,
        ← findFirstF_eq_find? p ns]
      cases findFirst p n <;> simp [Option.orElse]

end

mutual

/-- Text pieces of any node occurring in a subtree form a sublist of the
text pieces of the subtree. -/
theorem texts_sublist_of_mem_preorder (m n : Node) (h : m ∈ preorder n) :
    (texts m).Sublist (texts n) := by
  cases n with
  | text s =>
      rw [preorder, List.mem_singleton] at h
      subst h
      exact List.Sublist.refl _
  | elem t a c =>
      rw [preorder, List.mem_cons] at h
      rcases h with h | h
      · subst h
        exact List.Sublist.refl _
      · simpa [texts] using texts_sublist_of_mem_preorderF m c h

/-- Forest version of `texts_sublist_of_mem_preorder`. -/
theorem texts_sublist_of_mem_preorderF (m : Node) (f : Forest) (h : m ∈ preorderF f) :
    (texts m).Sublist (textsF f) := by
  cases f with
  | nil => simp [preorderF] at h
  | cons n ns =>
      rw [preorderF, List.mem_append] at h
      rcases h with h | h
      · exact (texts_sublist_of_mem_preorder m n h).trans
          (by rw [textsF]; exact List.sublist_append_left (texts n) (textsF ns))
      · exact (texts_sublist_of_mem_preorderF m ns h).trans
          (by rw [textsF]; exact List.sublist_append_right (texts n) (textsF ns))

end

/-- A removed-tag element keeps no text in the specification's
characterization. -/
theorem textsOutsideBanned_of_banned (n : Node) (h : isBannedElem n = true) :
    textsOutsideBanned n = [] := by
  cases n with
  | text s => simp [isBannedElem] at h
  | elem t a c =>
      rw [isBannedElem] at h
      rw [textsOutsideBanned, if_pos h]

mutual

/-- On a node that is not itself of a removed tag, the decompose loop keeps
exactly the text pieces with no removed-tag ancestor. -/
theorem texts_clean (n : Node) (h : isBannedElem n = false) :
    texts (clean n) = textsOutsideBanned n := by
  cases n with
  | text s => rfl
  | elem t a c =>
      rw [isBannedElem] at h
      rw [clean, texts, textsOutsideBanned, h]
      simp only [Bool.false_eq_true, if_false]
      exact textsF_cleanF c

/-- Forest version of `texts_clean`. -/
theorem textsF_cleanF (f : Forest) :
    textsF (cleanF f) = textsOutsideBannedF f := by
  cases f with
  | nil => rfl
  | cons n ns =>
      cases hb : isBannedElem n with
      | true =>
          rw [cleanF, if_pos (by simp [hb]), textsOutsideBannedF,
            textsOutsideBanned_of_banned n hb]
          simpa using textsF_cleanF ns
      | false =>
          rw [cleanF, if_neg (by simp [hb]), textsF, texts_clean n hb, textsOutsideBannedF]
          rw [textsF_cleanF ns]

end

/-- A successful first-match search returns a node of the searched subtree. -/
theorem mem_preorder_of_findFirst (p : Node → Bool) (n m : Node)
    (h : findFirst p n = some m) : m ∈ preorder n := by
  rw [findFirst_eq_find?] at h
  exact List.mem_of_find?_eq_some h

/-- The selected main-content container is a node of the searched soup. -/
theorem selectMainContent_mem (u m : Node) (h : selectMainContent u = some m) :
    m ∈ preorder u := by
  rw [selectMainContent] at h
  cases h1 : findFirst (fun n => n.tagIs "main") u with
  | some x =>
      rw [h1] at h
      simp only [Option.orElse] at h
      exact Option.some_inj.mp h ▸ mem_preorder_of_findFirst _ _ _ h1
  | none =>
      rw [h1] at h
      simp only [Option.orElse] at h
      cases h2 : findFirst (fun n => n.tagIs "article") u with
      | some x =>
          rw [h2] at h
          simp only [Option.orElse] at h
          exact Option.some_inj.mp h ▸ mem_preorder_of_findFirst _ _ _ h2
      | none =>
          rw [h2] at h
          simp only [Option.orElse] at h
          cases h3 : findFirst divClassMatch u with
          | some x =>
              rw [h3] at h
              simp only [Option.orElse] at h
              exact Option.some_inj.mp h ▸ mem_preorder_of_findFirst _ _ _ h3
          | none =>
              rw [h3] at h
              simp only [Option.orElse] at h
              exact mem_preorder_of_findFirst _ _ _ h

/-- The text pieces serialized by `read_url` form a sublist of the text
pieces of the cleaned soup. -/
theorem mainContainer_texts_sublist (soup : Node) :
    (texts (mainContainer soup)).Sublist (texts (clean soup)) := by
  rw [mainContainer]
  cases h : selectMainContent (clean soup) with
  | none => exact List.Sublist.refl _
  | some m => exact texts_sublist_of_mem_preorder m (clean soup) (selectMainContent_mem _ _ h)

/-! ## Newline collapsing -/

/-- Invariant of the newline-collapsing pass: the output has no two
adjacent newlines, and with `prev = true` it does not start with one. -/
theorem collapseAux_ok (cs : List Char) : ∀ prev : Bool,
    (List.Chain' (fun a b => ¬(a = '\n' ∧ b = '\n')) (collapseAux cs prev)) ∧
    (∀ c, (collapseAux cs true).head? = some c → c ≠ '\n') := by
  induction cs with
  | nil => intro prev; simp [collapseAux]
  | cons c cs ih =>
      intro prev
      by_cases hc : c = '\n'
      · subst hc
        refine ⟨?_, ?_⟩
        · cases prev with
          | true => simpa [collapseAux] using (ih true).1
          | false =>
              rw [collapseAux, if_pos rfl, if_neg (by simp)]
              rw [List.chain'_cons']
              refine ⟨?_, (ih true).1⟩
              intro y hy hcon
              exact (ih false).2 y hy hcon.2
        · intro d hd
          rw [collapseAux, if_pos rfl, if_pos rfl] at hd
          exact (ih prev).2 d hd
      · refine ⟨?_, ?_⟩
        · rw [collapseAux, if_neg hc, List.chain'_cons']
          refine ⟨?_, (ih false).1⟩
          intro y _ hcon
          exact hc hcon.1
        · intro d hd
          rw [collapseAux, if_neg hc] at hd
          simp only [List.head?_cons, Option.some_inj] at hd
          exact hd ▸ hc

/-- The collapsed string has no two adjacent newline characters. -/
theorem collapseNewlines_chain (s : String) :
    List.Chain' (fun a b => ¬(a = '\n' ∧ b = '\n')) (collapseNewlines s).data :=
  (collapseAux_ok s.data false).1

/-- The collapsed string does not contain `"\n\n"` as a substring: blank
lines are removed. -/
theorem collapseNewlines_no_blank (s : String) :
    ¬ (['\n', '\n'] <:+: (collapseNewlines s).data) := by
  intro h
  obtain ⟨u, v, huv⟩ := h
  have hch := collapseNewlines_chain s
  rw [← huv, List.append_assoc] at hch
  have h2 := (List.chain'_append.mp hch).2.1
  simp only [List.cons_append, List.nil_append] at h2
  rw [List.chain'_cons] at h2
  exact h2.1 ⟨rfl, rfl⟩

/-! ## The search-result loop -/

/-- The two `select_one(".result__a")` lines compute the same node. -/
theorem urlElem_eq_titleElem (r : Node) : urlElem r = titleElem r := rfl

/-- Closed form of the result loop: starting below the limit, the loop
returns the accumulator followed by the records of the valid result
elements, truncated to the remaining capacity. -/
theorem searchLoop_eq (N : Nat) : ∀ (l : List Node) (acc : List SearchResult),
    acc.length < N →
    searchLoop N l acc =
      acc ++ ((l.filter validResult).map resultRecord).take (N - acc.length) := by
  intro l
  induction l with
  | nil => intro acc _; simp [searchLoop]
  | cons r rest ih =>
      intro acc hacc
      cases ht : titleElem r with
      | none =>
          have hu : urlElem r = none := ht
          have hvr : validResult r = false := by simp [validResult, ht]
          rw [searchLoop]
          simp only [ht, hu]
          rw [if_neg (by omega), List.filter_cons, hvr]
          simp only [Bool.false_eq_true, if_false]
          exact ih acc hacc
      | some t =>
          have hu : urlElem r = some t := ht
          have hvr : validResult r = true := by simp [validResult, ht, hu]
          have hrec :
              ({ title := getText "" t, url := t.attr "href",
                 description := match snippetElem r with
                                | some s => getText "" s
                                | none => "" } : SearchResult) = resultRecord r := by
            rw [resultRecord]
            simp only [ht, hu]
          rw [searchLoop]
          simp only [ht, hu]
          rw [hrec, List.filter_cons, hvr]
          simp only [if_pos]
          by_cases hN : N ≤ acc.length + 1
          · have hNe : N = acc.length + 1 := by omega
            rw [if_pos (by simp; omega)]
            rw [List.map_cons, hNe]
            simp
          · rw [if_neg (by simp; omega)]
            rw [ih (acc ++ [resultRecord r]) (by simp; omega)]
            have hsplit : N - acc.length = (N - (acc.length + 1)) + 1 := by omega
            rw [List.map_cons, hsplit, List.take_succ_cons]
            simp

/-- Appending further elements after enough valid results does not change
the loop's output: the loop has already returned before reaching them. -/
theorem searchLoop_append_of_enough (N : Nat) (pre suf : List Node)
    (acc : List SearchResult) (hacc : acc.length < N)
    (h : N ≤ acc.length + (pre.filter validResult).length) :
    searchLoop N (pre ++ suf) acc = searchLoop N pre acc := by
  rw [searchLoop_eq N (pre ++ suf) acc hacc, searchLoop_eq N pre acc hacc]
  rw [List.filter_append, List.map_append]
  rw [List.take_append_of_le_length (by rw [List.length_map]; omega)]

/-- Pre-order listing of a forest distributes over forest concatenation. -/
theorem preorderF_append (f g : Forest) :
    preorderF (f.append g) = preorderF f ++ preorderF g := by
  cases f with
  | nil => simp [Forest.append, preorderF]
  | cons n ns =>
      rw [Forest.append, preorderF, preorderF, preorderF_append ns g, List.append_assoc]

/-- The synthetic document root matches no class selector, so selecting
over a document selects over its top-level forest. -/
theorem selectAll_mkDoc (p : Node → Bool) (f : Forest)
    (hroot : p (.elem "[document]" [] f) = false) :
    selectAll p (mkDoc f) = (preorderF f).filter p := by
  rw [selectAll, mkDoc, preorder, List.filter_cons, hroot]
  simp

/-! ## Claim theorems -/

/-- C1 (amended): the main-content container is selected by fixed priority
over the cleaned document, first match in document order winning: (a) the
first `<main>` element; (b) else the first `<article>` element; (c) else
the first `<div>` element whose class attribute contains (case-sensitive
substring) one of `content`, `article`, `post`, `main`; (d) else the
document body; (e) else the whole remaining document.  In particular, for a
document containing both `<main>` and `<article>`, `<main>`'s content is
selected. -/
theorem C1_main_content_priority (kids : Forest) :
    (∀ m, (preorder (clean (mkDoc kids))).find? (fun n => n.tagIs "main") = some m →
        mainContainer (mkDoc kids) = m) ∧
    ((preorder (clean (mkDoc kids))).find? (fun n => n.tagIs "main") = none →
      ∀ a, (preorder (clean (mkDoc kids))).find? (fun n => n.tagIs "article") = some a →
        mainContainer (mkDoc kids) = a) ∧
    ((preorder (clean (mkDoc kids))).find? (fun n => n.tagIs "main") = none →
      (preorder (clean (mkDoc kids))).find? (fun n => n.tagIs "article") = none →
      ∀ d, (preorder (clean (mkDoc kids))).find? divClassMatch = some d →
        mainContainer (mkDoc kids) = d) ∧
    ((preorder (clean (mkDoc kids))).find? (fun n => n.tagIs "main") = none →
      (preorder (clean (mkDoc kids))).find? (fun n => n.tagIs "article") = none →
      (preorder (clean (mkDoc kids))).find? divClassMatch = none →
      ∀ b, (preorder (clean (mkDoc kids))).find? (fun n => n.tagIs "body") = some b →
        mainContainer (mkDoc kids) = b) ∧
    ((preorder (clean (mkDoc kids))).find? (fun n => n.tagIs "main") = none →
      (preorder (clean (mkDoc kids))).find? (fun n => n.tagIs "article") = none →
      (preorder (clean (mkDoc kids))).find? divClassMatch = none →
      (preorder (clean (mkDoc kids))).find? (fun n => n.tagIs "body") = none →
      mainContainer (mkDoc kids) = clean (mkDoc kids)) := by
  refine ⟨?_, ?_, ?_, ?_, ?_⟩
  · intro m hm
    simp only [mainContainer, selectMainContent, findFirst_eq_find?]
    rw [hm]
    rfl
  · intro h0 a ha
    simp only [mainContainer, selectMainContent, findFirst_eq_find?]
    rw [h0, ha]
    rfl
  · intro h0 h1 d hd
    simp only [mainContainer, selectMainContent, findFirst_eq_find?]
    rw [h0, h1, hd]
    rfl
  · intro h0 h1 h2 b hb
    simp only [mainContainer, selectMainContent, findFirst_eq_find?]
    rw [h0, h1, h2, hb]
    rfl
  · intro h0 h1 h2 h3
    simp only [mainContainer, selectMainContent, findFirst_eq_find?]
    rw [h0, h1, h2, h3]
    rfl

/-- C1 witness: for the document with both `<article>` (first in document
order) and `<main>`, clause (a) of `C1_main_content_priority` applies and
the `<main>` element is selected. -/
theorem C1_main_content_priority_witness :
    (preorder (clean (mkDoc prioKids))).find? (fun n => n.tagIs "main") =
      some (Node.elem "main" [] (.ofList [Node.text "MAIN"])) ∧
    mainContainer (mkDoc prioKids) = Node.elem "main" [] (.ofList [Node.text "MAIN"]) :=
  ⟨rfl, (C1_main_content_priority prioKids).1 _ rfl⟩

/-- C1 counterexample: on a document with no `<main>`, no `<article>` and
no matching `<div>`, but with a `<span class="content">`, the claimed
selection (step (c) over any tag) would serialize the span alone,
`"SPAN"`, while the code selects the document body and serializes
`"OUT\nSPAN"`. -/
theorem C1_counterexample :
    specExtractContent cexDoc = "SPAN" ∧
    extractContent cexDoc = "OUT\nSPAN" ∧
    extractContent cexDoc ≠ specExtractContent cexDoc :=
  ⟨rfl, rfl, by decide⟩

/-- C2: when the search pipeline raises with a non-empty message, the
`/search` handler returns HTTP 200 and the shape
`{query, error, results: []}` with a non-empty error field — never a
non-200 status and never partial results alongside the error. -/
theorem C2_search_error_always_200 (q msg : String) (h : msg ≠ "") :
    searchEndpoint q (.error msg) =
      (200, { query := q, results_count := none, error := some msg, results := [] }) ∧
    ∀ e, (searchEndpoint q (.error msg)).2.error = some e → e ≠ "" := by
  refine ⟨rfl, ?_⟩
  intro e he
  simp only [searchEndpoint] at he
  exact Option.some_inj.mp he ▸ h

/-- C2 witness at a concrete query and message. -/
theorem C2_search_error_always_200_witness :
    "boom" ≠ "" ∧
    (searchEndpoint "test" (.error "boom") =
      (200, { query := "test", results_count := none, error := some "boom", results := [] }) ∧
     ∀ e, (searchEndpoint "test" (.error "boom")).2.error = some e → e ≠ "") :=
  ⟨by decide, C2_search_error_always_200 "test" "boom" (by decide)⟩

/-- C3: a transport-level fetch failure yields HTTP 400 with detail
`"Error fetching URL: <message>"` regardless of anything the extraction
phase would do (extraction is never reached); an extraction failure after
a successful fetch yields HTTP 500 with detail
`"Error parsing content: <message>"`; otherwise the handler returns 200
with the success shape `{url, title, content, status_code}`. -/
theorem C3_read_error_routing (msg pm : String) (page : FetchedPage) :
    (∀ pf, read_url (.error msg) pf = .httpError 400 ("Error fetching URL: " ++ msg)) ∧
    read_url (.ok page) (some pm) = .httpError 500 ("Error parsing content: " ++ pm) ∧
    read_url (.ok page) none =
      .success page.url (extractTitle page.body) (extractContent page.body) page.status_code :=
  ⟨fun _ => rfl, rfl, rfl⟩

/-- C9: whenever the fetch completes at the transport level, `/read`
returns the success shape for every upstream status code — an upstream 404
or 500 is not treated as a failure; the status is passed through in
`status_code` and extraction runs on the fetched body. -/
theorem C9_upstream_status_passthrough (u : String) (status : Nat) (page : Node) :
    read_url (.ok ⟨u, status, page⟩) none =
      .success u (extractTitle page) (extractContent page) status ∧
    read_url (.ok ⟨u, 404, page⟩) none =
      .success u (extractTitle page) (extractContent page) 404 :=
  ⟨rfl, rfl⟩

/-- C4: with limit `N ≥ 1` and a results page holding at least `N` valid
result elements, the parser returns exactly the first `N` valid results in
document order, and appending any further content to the document (more
result containers included) leaves the output unchanged — the loop has
already returned before reaching it. -/
theorem C4_limit_and_early_stop (kids extra : Forest) (N : Nat) (h1 : 1 ≤ N)
    (h2 : N ≤ ((selectAll resultSel (mkDoc kids)).filter validResult).length) :
    search_duckduckgo (mkDoc (kids.append extra)) N = search_duckduckgo (mkDoc kids) N ∧
    search_duckduckgo (mkDoc kids) N =
      (((selectAll resultSel (mkDoc kids)).filter validResult).map resultRecord).take N ∧
    (search_duckduckgo (mkDoc kids) N).length = N := by
  have hsel : ∀ f : Forest, selectAll resultSel (mkDoc f) = (preorderF f).filter resultSel :=
    fun f => selectAll_mkDoc _ _ rfl
  have heq : search_duckduckgo (mkDoc kids) N =
      (((selectAll resultSel (mkDoc kids)).filter validResult).map resultRecord).take N := by
    rw [search_duckduckgo, searchLoop_eq N _ [] (by simp only [List.length_nil]; omega)]
    simp
  refine ⟨?_, heq, ?_⟩
  · rw [search_duckduckgo, search_duckduckgo, hsel, hsel, preorderF_append, List.filter_append]
    exact searchLoop_append_of_enough N _ _ [] (by simp only [List.length_nil]; omega)
      (by rw [hsel] at h2; simp only [List.length_nil, Nat.zero_add]; omega)
  · rw [heq, List.length_take, List.length_map]
    omega

/-- C4 witness: a page with three valid results, limit 2, and extra content
appended after the page. -/
theorem C4_limit_and_early_stop_witness :
    1 ≤ 2 ∧
    2 ≤ ((selectAll resultSel (mkDoc pageKids3)).filter validResult).length ∧
    (search_duckduckgo (mkDoc (pageKids3.append extraKids)) 2 =
       search_duckduckgo (mkDoc pageKids3) 2 ∧
     search_duckduckgo (mkDoc pageKids3) 2 =
       (((selectAll resultSel (mkDoc pageKids3)).filter validResult).map resultRecord).take 2 ∧
     (search_duckduckgo (mkDoc pageKids3) 2).length = 2) :=
  ⟨by decide, by decide, C4_limit_and_early_stop pageKids3 extraKids 2 (by decide) (by decide)⟩

/-- C5: with limit `N ≥ 1` and a results page holding `M < N` valid result
elements, the parser returns exactly the `M` valid results — it never pads
to `N` and never fails. -/
theorem C5_fewer_results_than_limit (kids : Forest) (N : Nat) (h1 : 1 ≤ N)
    (h2 : ((selectAll resultSel (mkDoc kids)).filter validResult).length < N) :
    search_duckduckgo (mkDoc kids) N =
      ((selectAll resultSel (mkDoc kids)).filter validResult).map resultRecord ∧
    (search_duckduckgo (mkDoc kids) N).length =
      ((selectAll resultSel (mkDoc kids)).filter validResult).length := by
  have heq : search_duckduckgo (mkDoc kids) N =
      ((selectAll resultSel (mkDoc kids)).filter validResult).map resultRecord := by
    rw [search_duckduckgo, searchLoop_eq N _ [] (by simp only [List.length_nil]; omega)]
    simp only [List.nil_append, List.length_nil, Nat.sub_zero]
    exact List.take_of_length_le (by rw [List.length_map]; omega)
  exact ⟨heq, by rw [heq, List.length_map]⟩

/-- C5 witness: a page with two valid results and limit 5. -/
theorem C5_fewer_results_than_limit_witness :
    1 ≤ 5 ∧
    ((selectAll resultSel (mkDoc pageKids2)).filter validResult).length < 5 ∧
    (search_duckduckgo (mkDoc pageKids2) 5 =
       ((selectAll resultSel (mkDoc pageKids2)).filter validResult).map resultRecord ∧
     (search_duckduckgo (mkDoc pageKids2) 5).length =
       ((selectAll resultSel (mkDoc pageKids2)).filter validResult).length) :=
  ⟨by decide, by decide, C5_fewer_results_than_limit pageKids2 5 (by decide) (by decide)⟩

/-- C6: a result container with neither a title element nor a link element
is skipped entirely — removing it from the element sequence does not change
the parser's output, so it is never counted toward the limit; and the
description of any extracted record is the snippet element's text, or the
empty string when the snippet element is absent. -/
theorem C6_invalid_skipped_and_description (N : Nat) (l1 l2 : List Node) (r : Node)
    (hN : 1 ≤ N) (ht : titleElem r = none) (hu : urlElem r = none) :
    searchLoop N (l1 ++ r :: l2) [] = searchLoop N (l1 ++ l2) [] ∧
    validResult r = false ∧
    (∀ x, snippetElem x = none → (resultRecord x).description = "") ∧
    (∀ x s, snippetElem x = some s → (resultRecord x).description = getText "" s) := by
  have hvr : validResult r = false := by simp [validResult, ht, hu]
  refine ⟨?_, hvr, ?_, ?_⟩
  · rw [searchLoop_eq N _ [] (by simp only [List.length_nil]; omega),
      searchLoop_eq N _ [] (by simp only [List.length_nil]; omega)]
    rw [List.filter_append, List.filter_append, List.filter_cons, hvr]
    simp
  · intro x hx
    simp [resultRecord, hx]
  · intro x s hx
    simp [resultRecord, hx]

/-- C6 witness: a no-link container between two valid results, limit 3. -/
theorem C6_invalid_skipped_and_description_witness :
    1 ≤ 3 ∧ titleElem sampleNoLink = none ∧ urlElem sampleNoLink = none ∧
    (searchLoop 3 ([sampleResult1] ++ sampleNoLink :: [sampleResult2]) [] =
       searchLoop 3 ([sampleResult1] ++ [sampleResult2]) [] ∧
     validResult sampleNoLink = false ∧
     (∀ x, snippetElem x = none → (resultRecord x).description = "") ∧
     (∀ x s, snippetElem x = some s → (resultRecord x).description = getText "" s)) :=
  ⟨by decide, rfl, rfl,
    C6_invalid_skipped_and_description 3 [sampleResult1] [sampleResult2] sampleNoLink
      (by decide) rfl rfl⟩

/-- C7: the extracted content is assembled exclusively from the text pieces
of the selected container of the cleaned document, and those pieces form a
sublist of the text pieces of the original document that have no
script/style/nav/header/footer/aside ancestor — text originating inside
such an element never reaches the output, even nested inside the chosen
container. -/
theorem C7_no_banned_text (kids : Forest) :
    extractContent (mkDoc kids) =
      collapseNewlines (joinSep "\n" (stripPieces (texts (mainContainer (mkDoc kids))))) ∧
    (texts (mainContainer (mkDoc kids))).Sublist (textsOutsideBanned (mkDoc kids)) := by
  constructor
  · rfl
  · have h1 := mainContainer_texts_sublist (mkDoc kids)
    have h2 : texts (clean (mkDoc kids)) = textsOutsideBanned (mkDoc kids) :=
      texts_clean _ rfl
    rw [h2] at h1
    exact h1

/-- C8: the extractor's output never contains two consecutive newlines (no
blank lines), runs of newlines are collapsed to one (`"A\n\n\nB"` becomes
`"A\nB"`), and a document whose raw serialized text is `"A\n\n\nB"` yields
content `"A\nB"`. -/
theorem C8_newline_collapsing (kids : Forest) :
    (¬ (['\n', '\n'] <:+: (extractContent (mkDoc kids)).data)) ∧
    collapseNewlines "A\n\n\nB" = "A\nB" ∧
    extractContent (mkDoc (.ofList [Node.text "A\n\n\nB"])) = "A\nB" :=
  ⟨collapseNewlines_no_blank _, rfl, rfl⟩

/-- C10: the title element and the url element of a result are computed by
the same selector and are always the same node; a result whose anchor
exists is extracted even when the anchor has no `href` attribute, and its
`url` field is then `none` (JSON `null`) rather than a string. -/
theorem C10_title_url_same_node (r a : Node) (h : titleElem r = some a)
    (hh : a.attr "href" = none) :
    (∀ x, urlElem x = titleElem x) ∧
    validResult r = true ∧
    (resultRecord r).url = none := by
  have hu : urlElem r = some a := h
  refine ⟨fun _ => rfl, by simp [validResult, h, hu], ?_⟩
  simp [resultRecord, hu, hh]

/-- C10 witness: a result whose anchor carries no `href`. -/
theorem C10_title_url_same_node_witness :
    titleElem sampleNoHref = some (sampleLinkNoHref "T4") ∧
    (sampleLinkNoHref "T4").attr "href" = none ∧
    ((∀ x, urlElem x = titleElem x) ∧
     validResult sampleNoHref = true ∧
     (resultRecord sampleNoHref).url = none) :=
  ⟨rfl, rfl, C10_title_url_same_node sampleNoHref (sampleLinkNoHref "T4") rfl rfl⟩

end QuickSearch
